import Mathlib

/-!
Verification development for the MultiNLI multi-model text-classification
benchmark notebook (`examples/text_classification/tc_mnli_transformers.ipynb`).

The notebook loads the MultiNLI dataset into a table, splits it into train
and test, subsamples each split, label-encodes the genre column, and then
runs a benchmark loop over a configured list of model identifiers
(cell-19): for each identifier it preprocesses the data, fits a sequence
classifier, predicts on the test set, evaluates accuracy and macro-F1, and
stores a result record in an ordered mapping; finally it exposes two
summary scalars (cell-22).

The splitter/sampler (`sklearn.model_selection.train_test_split`,
`pandas.DataFrame.sample`), label encoder
(`sklearn.preprocessing.LabelEncoder`) and evaluator
(`sklearn.metrics.accuracy_score` / `classification_report`) are external
collaborators whose sources are not part of this repository; they are
modelled here from the specification's contracts (§4.1, §4.2, §4.5) and
marked as such in their doc comments.  The benchmark loop itself, the
label-encoding cell and the summary cells are embedded directly from the
notebook source.
-/

namespace MnliBench

/-- Decidable equality of `Except` results, used to evaluate the embedded
operations on concrete inputs. -/
instance exceptDecEq {ε α : Type} [DecidableEq ε] [DecidableEq α] :
    DecidableEq (Except ε α) := fun x y =>
  match x, y with
  | .error a, .error b =>
    if h : a = b then .isTrue (by rw [h])
    else .isFalse (by intro hc; cases hc; exact h rfl)
  | .error _, .ok _ => .isFalse (fun hc => Except.noConfusion hc)
  | .ok _, .error _ => .isFalse (fun hc => Except.noConfusion hc)
  | .ok a, .ok b =>
    if h : a = b then .isTrue (by rw [h])
    else .isFalse (by intro hc; cases hc; exact h rfl)

/-- Row of the MultiNLI dataframe as used by the notebook: the label column
`genre`, the text column `sentence1`, and a representative further column
`gold_label` (the notebook filters on it and otherwise ignores the extra
columns). -/
structure PRow where
  gold_label : String
  genre : String
  sentence1 : String
deriving DecidableEq, Repr

/-- Row after label encoding (cell-12): the `genre` column now holds an
integer code; all other columns keep their type and content. -/
structure NRow where
  gold_label : String
  genre : Nat
  sentence1 : String
deriving DecidableEq, Repr

/-! ### Pseudo-random shuffling

Modelled from the spec: the external splitter/sampler draws a pseudo-random
permutation of the rows from a seed.  A linear congruential generator
stands in for the external RNG; the verified properties (determinism,
permutation, sizes) do not depend on the generator's quality. -/

/-- Linear congruential generator step, a stand-in for the external
pseudo-random number source seeded by `random_state`. -/
def lcg (s : Nat) : Nat :=
  (1103515245 * s + 12345) % 2 ^ 31

/-- Modelled from the spec: a seed-determined pseudo-random permutation of a
list, implemented by sorting the elements by pseudo-random keys drawn from
the seed. -/
def shuffle {α : Type} (seed : Nat) (l : List α) : List α :=
  let keys := (List.range l.length).map (fun i => lcg (seed + i))
  ((keys.zip l).mergeSort (fun p q => decide (p.1 ≤ q.1))).map Prod.snd

/-- `shuffle` returns a permutation of its input. -/
theorem shuffle_perm {α : Type} (seed : Nat) (l : List α) :
    List.Perm (shuffle seed l) l := by
  unfold shuffle
  have hlen : l.length ≤ ((List.range l.length).map (fun i => lcg (seed + i))).length := by
    simp
  have h1 := List.mergeSort_perm
    (((List.range l.length).map (fun i => lcg (seed + i))).zip l)
    (fun p q : Nat × α => decide (p.1 ≤ q.1))
  have h2 := h1.map Prod.snd
  rwa [List.map_snd_zip _ _ hlen] at h2

/-- `shuffle` preserves the length of the list. -/
theorem shuffle_length {α : Type} (seed : Nat) (l : List α) :
    (shuffle seed l).length = l.length :=
  (shuffle_perm seed l).length_eq

/-! ### Splitter / Sampler (spec §4.1) -/

/-- Error raised by `sample` on an invalid fraction. -/
inductive SampleError
  | badFraction
deriving DecidableEq, Repr

/-- Error raised by `split` on an invalid ratio or a too-small dataset. -/
inductive SplitError
  | badRatio
  | tooFewRows
deriving DecidableEq, Repr

/-- Number of rows kept when sampling a fraction `frac` of `n` rows:
`floor (frac * n)` (spec §3: "sample size = floor(fraction × split size)"). -/
def sampleSize (frac : ℚ) (n : Nat) : Nat :=
  (⌊frac * (n : ℚ)⌋).toNat

/-- Modelled from the spec (§4.1): `sample(subset, fraction, seed)` — the
external `pandas.DataFrame.sample` is not part of this repository.  Fails
if the fraction is not in `(0, 1]`; otherwise returns `floor(fraction × n)`
rows of a seed-determined pseudo-random permutation of the subset. -/
def sample {α : Type} (l : List α) (frac : ℚ) (seed : Nat) :
    Except SampleError (List α) :=
  if 0 < frac ∧ frac ≤ 1 then
    .ok ((shuffle seed l).take (sampleSize frac l.length))
  else .error .badFraction

/-- Modelled from the spec (§4.1): one run of the sampler in an environment
carrying a global RNG state.  When an explicit seed is supplied, the
pseudo-random generator is seeded from it alone, so the ambient global
state is not consulted; two runs differ only in `globalRngState`. -/
def sampleRun {α : Type} (globalRngState : Nat) (l : List α) (frac : ℚ)
    (seed : Nat) : Except SampleError (List α) :=
  let _ := globalRngState
  sample l frac seed

/-- Modelled from the spec (§4.1): `split(dataset, train_ratio, seed)` — the
external `sklearn.model_selection.train_test_split` is not part of this
repository.  Rows are given their position as identity, pseudo-randomly
permuted from the seed, and cut at `floor(train_ratio × n)`.  Fails if the
ratio is not in `(0, 1)` or the dataset has fewer than 2 rows. -/
def split {α : Type} (l : List α) (r : ℚ) (seed : Nat) :
    Except SplitError (List (Nat × α) × List (Nat × α)) :=
  if 0 < r ∧ r < 1 then
    if 2 ≤ l.length then
      let s := shuffle seed l.enum
      let k := sampleSize r l.length
      .ok (s.take k, s.drop k)
    else .error .tooFewRows
  else .error .badRatio

/-! ### Label Encoder (spec §4.2) -/

/-- Error raised by `leTransform` on a label absent from the fitted
mapping. -/
inductive LabelError
  | unknownLabel
deriving DecidableEq, Repr

/-- Lexicographic comparison of character lists by code point. -/
def charListLe : List Char → List Char → Bool
  | [], _ => true
  | _ :: _, [] => false
  | a :: as, b :: bs =>
    if a.val < b.val then true
    else if b.val < a.val then false
    else charListLe as bs

/-- Lexicographic comparison of label strings, used to put the fitted
classes in sorted lexical order. -/
def strLe (a b : String) : Bool :=
  charListLe a.data b.data

/-- Insertion of a label into a lexicographically sorted list of labels. -/
def orderedInsertStr (a : String) : List String → List String
  | [] => [a]
  | b :: l => if strLe a b then a :: b :: l else b :: orderedInsertStr a l

/-- Insertion sort of labels in lexicographic order. -/
def insertionSortStr : List String → List String
  | [] => []
  | a :: l => orderedInsertStr a (insertionSortStr l)

/-- Modelled from the spec (§4.2): `fit` of the label encoder — the external
`sklearn.preprocessing.LabelEncoder` is not part of this repository.  The
fitted mapping is the list of distinct labels in sorted lexical order; a
label's integer code is its index in this list. -/
def leFit (labels : List String) : List String :=
  insertionSortStr labels.dedup

/-- Modelled from the spec (§4.2): `transform(labels, mapping)` maps every
label to its code and fails with `UnknownLabelError` if any label is
absent from the fitted mapping. -/
def leTransform (labels : List String) (classes : List String) :
    Except LabelError (List Nat) :=
  match labels with
  | [] => .ok []
  | lab :: rest =>
    if lab ∈ classes then
      match leTransform rest classes with
      | .ok codes => .ok (List.indexOf lab classes :: codes)
      | .error e => .error e
    else .error .unknownLabel

/-- Modelled from the spec (§4.2): `inverse(codes, mapping)` maps codes back
to their label strings through the fitted mapping. -/
def leInverse (codes : List Nat) (classes : List String) : List String :=
  codes.map (fun c => classes.getD c "")

/-! ### Evaluator (spec §4.5) -/

/-- Error raised by the evaluator when predicted and true sequences have
different lengths. -/
inductive EvalError
  | lengthMismatch
deriving DecidableEq, Repr

/-- Modelled from the spec (§4.5): accuracy, the fraction of positions where
prediction and truth agree exactly; fails with `LengthMismatchError` when
the sequences disagree in length (the external `sklearn` scorer is not
part of this repository). -/
def accuracy_score (yTrue yPred : List Nat) : Except EvalError ℚ :=
  if yTrue.length = yPred.length then
    .ok (((yTrue.zip yPred).countP (fun q => q.1 == q.2) : ℚ) / (yTrue.length : ℚ))
  else .error .lengthMismatch

/-- True positives of class `c`: positions where truth and prediction both
equal `c`. -/
def truePositives (yTrue yPred : List Nat) (c : Nat) : Nat :=
  (yTrue.zip yPred).countP (fun q => q.1 == c && q.2 == c)

/-- Modelled from the spec (§4.5): per-class precision, `TP / predicted
count`, defined as 0 when the class is never predicted. -/
def classPrecision (yTrue yPred : List Nat) (c : Nat) : ℚ :=
  if yPred.count c = 0 then 0
  else (truePositives yTrue yPred c : ℚ) / (yPred.count c : ℚ)

/-- Modelled from the spec (§4.5): per-class recall, `TP / true count`,
defined as 0 when the class never occurs in the truth. -/
def classRecall (yTrue yPred : List Nat) (c : Nat) : ℚ :=
  if yTrue.count c = 0 then 0
  else (truePositives yTrue yPred c : ℚ) / (yTrue.count c : ℚ)

/-- Modelled from the spec (§4.5): per-class F1, the harmonic mean of
precision and recall, defined as 0 when precision + recall is 0 — in
particular for a class with zero true and zero predicted instances. -/
def classF1 (yTrue yPred : List Nat) (c : Nat) : ℚ :=
  let pr := classPrecision yTrue yPred c
  let rc := classRecall yTrue yPred c
  if pr + rc = 0 then 0 else 2 * pr * rc / (pr + rc)

/-- Modelled from the spec (§4.5): macro-F1, the unweighted mean of the
per-class F1 scores over all `numLabels` classes. -/
def macroF1 (yTrue yPred : List Nat) (numLabels : Nat) : ℚ :=
  (((List.range numLabels).map (classF1 yTrue yPred)).sum) / (numLabels : ℚ)

/-- Modelled from the spec (§4.5): macro-F1 as invoked by the benchmark loop
through `classification_report`, which fails with `LengthMismatchError`
when the sequences disagree in length. -/
def macroF1Checked (yTrue yPred : List Nat) (numLabels : Nat) :
    Except EvalError ℚ :=
  if yTrue.length = yPred.length then .ok (macroF1 yTrue yPred numLabels)
  else .error .lengthMismatch

/-- Modelled from the spec (§4.5): `evaluate(true, predicted, labels)`
returns accuracy and macro-F1, failing with `LengthMismatchError` on a
length mismatch. -/
def evaluate (yTrue yPred : List Nat) (numLabels : Nat) :
    Except EvalError (ℚ × ℚ) := do
  let acc ← accuracy_score yTrue yPred
  let f1 ← macroF1Checked yTrue yPred numLabels
  pure (acc, f1)

/-! ### Label-encoding cell (notebook cell-12)

Embeds
```
label_encoder = LabelEncoder()
df_train[LABEL_COL] = label_encoder.fit_transform(df_train[LABEL_COL])
df_test[LABEL_COL] = label_encoder.transform(df_test[LABEL_COL])
num_labels = len(np.unique(df_train[LABEL_COL]))
```
functionally: the in-place overwrite of the `genre` column becomes the
construction of `NRow` lists carrying the codes, with every other column
copied unchanged. -/

/-- Label-encoding step of cell-12: fit the encoder on the training genre
column, transform both genre columns to codes, overwrite the label column
of both dataframes with the codes, and count the distinct codes. -/
def encodeLabels (dfTrain dfTest : List PRow) :
    Except LabelError (List NRow × List NRow × List String × Nat) :=
  match leTransform (dfTrain.map (fun row => row.genre))
      (leFit (dfTrain.map (fun row => row.genre))) with
  | .error e => .error e
  | .ok trainCodes =>
  match leTransform (dfTest.map (fun row => row.genre))
      (leFit (dfTrain.map (fun row => row.genre))) with
  | .error e => .error e
  | .ok testCodes =>
    .ok ((dfTrain.zip trainCodes).map
          (fun q => NRow.mk q.1.gold_label q.2 q.1.sentence1),
         (dfTest.zip testCodes).map
          (fun q => NRow.mk q.1.gold_label q.2 q.1.sentence1),
         leFit (dfTrain.map (fun row => row.genre)),
         trainCodes.dedup.length)

/-! ### Benchmark harness (notebook cell-19)

The loop body drives one model identifier through preprocess → fit →
predict → evaluate and, on success, produces a result record; the loop
inserts the record into the ordered results mapping.  The external
sequence-classification wrapper (`Processor` /
`SequenceClassifier`) is abstracted as a record of operations that may
fail, exactly as the notebook calls them; the notebook body itself has no
exception handler, so an error in any step propagates out of the loop. -/

/-- Adapter-level failures of the external model wrapper (spec §4.3). -/
inductive AdapterError
  | modelUnavailable
  | resourceExhausted
deriving DecidableEq, Repr

/-- Error escaping the benchmark loop body: an adapter failure or an
evaluator failure. -/
inductive BenchError
  | adapter (e : AdapterError)
  | evalErr (e : EvalError)
deriving DecidableEq, Repr

/-- Per-model result record as stored by cell-19: accuracy, macro-average
F1 score, and training time in hours. -/
structure ResultRecord where
  accuracy : ℚ
  f1Score : ℚ
  timeHrs : ℚ
deriving DecidableEq, Repr

/-- Operations of the external model wrapper, as the notebook invokes them:
`Processor(...).create_dataloader_from_df` (with the model name, the
lowercase flag derived from the name, the dataframe and the shuffle flag),
`SequenceClassifier(...).fit` (returning a trained state and the elapsed
seconds measured by `Timer`), and `classifier.predict` (returning predicted
label codes).  `β` is the batch type, `σ` the trained-state type. -/
structure AdapterOps (β σ : Type) where
  preprocess : String → Bool → List NRow → Bool → Except AdapterError β
  fit : String → β → Except AdapterError (σ × ℚ)
  predict : String → σ → β → Except AdapterError (List Nat)

/-- Body of the benchmark loop of cell-19 for one model identifier:
preprocess train (shuffled) and test (unshuffled) with the lowercase flag
`model_name.endswith("uncased")`, fit with timing, predict, then compute
accuracy and macro-F1 against the test labels; only if every step succeeds
does it return the result record (with training time converted to hours). -/
def benchmarkBody {β σ : Type} (ops : AdapterOps β σ) (dfTrain dfTest : List NRow)
    (numLabels : Nat) (modelName : String) : Except BenchError ResultRecord :=
  match ops.preprocess modelName (modelName.endsWith "uncased") dfTrain true with
  | .error e => .error (.adapter e)
  | .ok trainDl =>
  match ops.preprocess modelName (modelName.endsWith "uncased") dfTest false with
  | .error e => .error (.adapter e)
  | .ok testDl =>
  match ops.fit modelName trainDl with
  | .error e => .error (.adapter e)
  | .ok fitRes =>
  match ops.predict modelName fitRes.1 testDl with
  | .error e => .error (.adapter e)
  | .ok preds =>
  match accuracy_score (dfTest.map (fun row => row.genre)) preds with
  | .error e => .error (.evalErr e)
  | .ok acc =>
  match macroF1Checked (dfTest.map (fun row => row.genre)) preds numLabels with
  | .error e => .error (.evalErr e)
  | .ok f1 => .ok (ResultRecord.mk acc f1 (fitRes.2 / 3600))

/-- The benchmark loop of cell-19 over the configured model identifiers,
starting from the already-collected results `acc` (the notebook starts
from `results = {}`).  The notebook body has no `try`/`except`: a record is
appended only when the body succeeds, and on the first failing body the
loop stops and the error escapes, leaving the results collected so far. -/
def runBenchmark {β σ : Type} (ops : AdapterOps β σ) (dfTrain dfTest : List NRow)
    (numLabels : Nat) : List String → List (String × ResultRecord) →
    List (String × ResultRecord) × Option BenchError
  | [], acc => (acc, none)
  | m :: rest, acc =>
    match benchmarkBody ops dfTrain dfTest numLabels m with
    | .ok r => runBenchmark ops dfTrain dfTest numLabels rest (acc ++ [(m, r)])
    | .error e => (acc, some e)

/-! ### Result table and summary scalars (notebook cells 21–22)

`pd.DataFrame(results)` lays the records out with one row per metric, in
the insertion order of the record fields (`accuracy`, `f1-score`,
`time(hrs)`), and one column per model; `sb.glue` then exposes the means of
row 0 and row 1. -/

/-- The rows of `df_results = pd.DataFrame(results)` (cell-21): row 0 is
the accuracy of each model, row 1 the macro-F1, row 2 the training time,
with one entry per model in insertion order. -/
def resultsTable (results : List (String × ResultRecord)) : List (List ℚ) :=
  [results.map (fun pr => pr.2.accuracy),
   results.map (fun pr => pr.2.f1Score),
   results.map (fun pr => pr.2.timeHrs)]

/-- `df_results.iloc[i, :].mean()`: the arithmetic mean of row `i` of the
result table. -/
def ilocRowMean (table : List (List ℚ)) (i : Nat) : ℚ :=
  ((table.getD i []).sum) / ((table.getD i []).length : ℚ)

/-- The scalar `sb.glue("accuracy", df_results.iloc[0, :].mean())` of
cell-22. -/
def glueAccuracy (results : List (String × ResultRecord)) : ℚ :=
  ilocRowMean (resultsTable results) 0

/-- The scalar `sb.glue("f1", df_results.iloc[1, :].mean())` of cell-22. -/
def glueF1 (results : List (String × ResultRecord)) : ℚ :=
  ilocRowMean (resultsTable results) 1

/-! ### Concrete instances used to evaluate the harness on explicit inputs -/

/-- A one-row encoded test dataframe. -/
def cexTestDf : List NRow :=
  [NRow.mk "neutral" 0 "the test sentence"]

/-- Concrete adapter operations whose `fit` fails with
`ResourceExhaustedError` for the identifier `"model-b"` and succeeds (in 36
seconds) for every other identifier; `predict` returns the correct code for
`cexTestDf`. -/
def failSecondOps : AdapterOps Nat Nat where
  preprocess := fun _ _ _ _ => .ok 0
  fit := fun m _ =>
    if m = "model-b" then .error .resourceExhausted else .ok (0, 36)
  predict := fun _ _ _ => .ok [0]

/-! ## Theorems

### Label Encoder -/

/-- Inserting a label permutes consing it. -/
theorem perm_orderedInsertStr (a : String) :
    ∀ l, List.Perm (orderedInsertStr a l) (a :: l)
  | [] => List.Perm.refl _
  | b :: l => by
    unfold orderedInsertStr
    by_cases h : strLe a b
    · rw [if_pos h]
    · rw [if_neg h]
      exact ((perm_orderedInsertStr a l).cons b).trans (List.Perm.swap a b l)

/-- The insertion sort of the labels is a permutation of the labels. -/
theorem perm_insertionSortStr :
    ∀ l, List.Perm (insertionSortStr l) l
  | [] => List.Perm.refl _
  | a :: l =>
    (perm_orderedInsertStr a (insertionSortStr l)).trans
      ((perm_insertionSortStr l).cons a)

/-- Membership in the fitted mapping is membership in the training labels. -/
theorem mem_leFit {x : String} {L : List String} : x ∈ leFit L ↔ x ∈ L := by
  unfold leFit
  exact (perm_insertionSortStr L.dedup).mem_iff.trans List.mem_dedup

/-- When every label is in the mapping, `leTransform` succeeds and returns
each label's index in the mapping. -/
theorem leTransform_ok_of_subset {labels classes : List String}
    (h : ∀ lab ∈ labels, lab ∈ classes) :
    leTransform labels classes
      = .ok (labels.map (fun lab => List.indexOf lab classes)) := by
  induction labels with
  | nil => rfl
  | cons a tl ih =>
    have ha : a ∈ classes := h a (List.mem_cons_self a tl)
    have htl := ih (fun lab hl => h lab (List.mem_cons_of_mem a hl))
    simp [leTransform, ha, htl]

/-- A successful `leTransform` determines the codes (each label's index in
the mapping) and forces every label to be in the mapping. -/
theorem leTransform_ok_elim {labels classes : List String} {codes : List Nat}
    (h : leTransform labels classes = .ok codes) :
    codes = labels.map (fun lab => List.indexOf lab classes)
      ∧ ∀ lab ∈ labels, lab ∈ classes := by
  induction labels generalizing codes with
  | nil =>
    simp only [leTransform] at h
    cases h
    simp
  | cons a tl ih =>
    simp only [leTransform] at h
    by_cases ha : a ∈ classes
    · rw [if_pos ha] at h
      cases htl : leTransform tl classes with
      | error e =>
        rw [htl] at h
        cases h
      | ok cs =>
        rw [htl] at h
        cases h
        obtain ⟨h1, h2⟩ := ih htl
        subst h1
        refine ⟨rfl, ?_⟩
        intro lab hl
        rcases List.mem_cons.mp hl with h | h
        · exact h ▸ ha
        · exact h2 lab h
    · rw [if_neg ha] at h
      cases h

/-- A successful `leTransform` yields as many codes as labels. -/
theorem leTransform_ok_length {labels classes : List String} {codes : List Nat}
    (h : leTransform labels classes = .ok codes) :
    codes.length = labels.length := by
  rw [(leTransform_ok_elim h).1]
  simp

/-- Mapping the indices of in-mapping labels back through the mapping
recovers the labels. -/
theorem leInverse_of_subset {labels classes : List String}
    (h : ∀ lab ∈ labels, lab ∈ classes) :
    leInverse (labels.map (fun lab => List.indexOf lab classes)) classes
      = labels := by
  induction labels with
  | nil => rfl
  | cons a tl ih =>
    have ha : a ∈ classes := h a (List.mem_cons_self a tl)
    have hlt : List.indexOf a classes < classes.length :=
      List.indexOf_lt_length.mpr ha
    simp only [leInverse, List.map_cons, List.map_map] at ih ⊢
    rw [List.getD_eq_getElem classes _ hlt, List.getElem_indexOf hlt]
    rw [ih (fun lab hl => h lab (List.mem_cons_of_mem a hl))]

/-- Inverting a successful `leTransform` through the same mapping recovers
the original label sequence. -/
theorem leInverse_leTransform {labels classes : List String} {codes : List Nat}
    (h : leTransform labels classes = .ok codes) :
    leInverse codes classes = labels := by
  obtain ⟨h1, h2⟩ := leTransform_ok_elim h
  rw [h1]
  exact leInverse_of_subset h2

/-- A label absent from the mapping makes `leTransform` fail with
`UnknownLabelError`. -/
theorem leTransform_error_of_unknown {labels classes : List String}
    {lab : String} (hmem : lab ∈ labels) (habs : lab ∉ classes) :
    leTransform labels classes = .error .unknownLabel := by
  induction labels with
  | nil => cases hmem
  | cons a tl ih =>
    simp only [leTransform]
    by_cases ha : a ∈ classes
    · have hlab : lab ∈ tl := by
        rcases List.mem_cons.mp hmem with h | h
        · exact absurd (h ▸ ha) habs
        · exact h
      have htl := ih hlab
      simp [ha, htl]
    · simp [ha]

/-- C5: Label Encoder round-trip — for every label sequence `L`, fitting on
`L`, transforming `L`, and inverting the codes through the same mapping
yields `L` again as a sequence. -/
theorem labelEncoderRoundTrip (L : List String) :
    ∃ codes, leTransform L (leFit L) = .ok codes
      ∧ leInverse codes (leFit L) = L := by
  have hsub : ∀ lab ∈ L, lab ∈ leFit L := fun lab h => mem_leFit.mpr h
  exact ⟨_, leTransform_ok_of_subset hsub, leInverse_of_subset hsub⟩

/-- C2: the Label Encoder rejects unseen labels — for every fitted mapping
and every label sequence containing a label absent from the training
labels, `transform` fails with `UnknownLabelError` (so it never fabricates
a new integer code for the unseen label). -/
theorem labelEncoderRejectsUnseen (train labels : List String) (lab : String)
    (hmem : lab ∈ labels) (habs : lab ∉ train) :
    leTransform labels (leFit train) = .error .unknownLabel :=
  leTransform_error_of_unknown hmem (fun h => habs (mem_leFit.mp h))

/-- C2 witness: fitting on `["fiction", "travel"]` and transforming
`["travel", "slate"]` fails with `UnknownLabelError` on the unseen label
`"slate"`. -/
theorem labelEncoderRejectsUnseen_witness :
    "slate" ∈ ["travel", "slate"] ∧ "slate" ∉ ["fiction", "travel"]
      ∧ leTransform ["travel", "slate"] (leFit ["fiction", "travel"])
          = .error .unknownLabel :=
  ⟨by decide, by decide,
    labelEncoderRejectsUnseen ["fiction", "travel"] ["travel", "slate"]
      "slate" (by decide) (by decide)⟩

/-! ### Splitter / Sampler -/

/-- C3: sampling is deterministic given a seed — for every subset and every
fraction in (0, 1], two runs of `sample(subset, fraction, seed)` with the
same seed (in arbitrary, possibly different, ambient RNG environments)
produce the same resulting subset. -/
theorem sampleDeterministic {α : Type} (g1 g2 : Nat) (l : List α) (frac : ℚ)
    (seed : Nat) (_h1 : 0 < frac) (_h2 : frac ≤ 1) :
    sampleRun g1 l frac seed = sampleRun g2 l frac seed := rfl

/-- C3 witness: two runs with the same seed 7 but ambient states 5 and 99
agree on a concrete subset and fraction 1/2. -/
theorem sampleDeterministic_witness :
    0 < (1 / 2 : ℚ) ∧ (1 / 2 : ℚ) ≤ 1
      ∧ sampleRun 5 ([10, 20, 30] : List Nat) (1 / 2) 7
          = sampleRun 99 ([10, 20, 30] : List Nat) (1 / 2) 7 :=
  ⟨by norm_num, by norm_num,
    sampleDeterministic 5 99 ([10, 20, 30] : List Nat) (1 / 2) 7
      (by norm_num) (by norm_num)⟩

/-- C4: sample size — for every subset of size `n` and fraction `f` in
(0, 1], sampling succeeds and returns exactly `floor (f × n)` rows. -/
theorem sampleSizeFloor {α : Type} (l : List α) (frac : ℚ) (seed : Nat)
    (h1 : 0 < frac) (h2 : frac ≤ 1) :
    ∃ out, sample l frac seed = .ok out
      ∧ out.length = (⌊frac * (l.length : ℚ)⌋).toNat := by
  have hif : sample l frac seed
      = .ok ((shuffle seed l).take (sampleSize frac l.length)) := by
    unfold sample
    rw [if_pos ⟨h1, h2⟩]
  refine ⟨_, hif, ?_⟩
  rw [List.length_take, shuffle_length]
  have hle : frac * (l.length : ℚ) ≤ (l.length : ℚ) := by
    calc frac * (l.length : ℚ) ≤ 1 * (l.length : ℚ) :=
          mul_le_mul_of_nonneg_right h2 (by positivity)
      _ = (l.length : ℚ) := one_mul _
  have hfl : ⌊frac * (l.length : ℚ)⌋ ≤ (l.length : ℤ) := by
    have := Int.floor_le_floor hle
    rwa [Int.floor_natCast] at this
  unfold sampleSize
  omega

/-- C4 witness: sampling 2/3 of a 4-row subset returns exactly
`floor (2/3 × 4) = 2` rows. -/
theorem sampleSizeFloor_witness :
    0 < (2 / 3 : ℚ) ∧ (2 / 3 : ℚ) ≤ 1
      ∧ ∃ out, sample ([10, 20, 30, 40] : List Nat) (2 / 3) 1 = .ok out
          ∧ out.length
              = (⌊(2 / 3 : ℚ) * ((([10, 20, 30, 40] : List Nat).length : ℚ))⌋).toNat :=
  ⟨by norm_num, by norm_num,
    sampleSizeFloor ([10, 20, 30, 40] : List Nat) (2 / 3) 1
      (by norm_num) (by norm_num)⟩

/-- The enumerated rows of a dataset have no duplicate: the position makes
each row's identity unique. -/
theorem nodup_enum {α : Type} (l : List α) : l.enum.Nodup := by
  have h : (l.enum.map Prod.fst).Nodup := by
    rw [List.enum_map_fst]
    exact List.nodup_range _
  exact h.of_map Prod.fst

/-- C7: split partition — for every dataset with at least 2 rows and ratio
in (0, 1), `split` succeeds with train and test lists of position-tagged
rows that are disjoint, whose concatenation is a permutation of the
enumerated dataset (union as a multiset of row identities equals the
dataset), and whose train size is within one row of `ratio × size`. -/
theorem splitPartition {α : Type} (l : List α) (r : ℚ) (seed : Nat)
    (h1 : 0 < r) (h2 : r < 1) (h3 : 2 ≤ l.length) :
    ∃ tr te, split l r seed = .ok (tr, te)
      ∧ (∀ x ∈ tr, x ∉ te)
      ∧ List.Perm (tr ++ te) l.enum
      ∧ |(tr.length : ℚ) - r * (l.length : ℚ)| < 1 := by
  have hif : split l r seed
      = .ok ((shuffle seed l.enum).take (sampleSize r l.length),
             (shuffle seed l.enum).drop (sampleSize r l.length)) := by
    unfold split
    rw [if_pos ⟨h1, h2⟩, if_pos h3]
  refine ⟨_, _, hif, ?_, ?_, ?_⟩
  · -- disjointness, from the Nodup of a permutation of the enumerated rows
    have hperm : List.Perm
        ((shuffle seed l.enum).take (sampleSize r l.length)
          ++ (shuffle seed l.enum).drop (sampleSize r l.length)) l.enum := by
      rw [List.take_append_drop]
      exact shuffle_perm seed l.enum
    have hnd : ((shuffle seed l.enum).take (sampleSize r l.length)
        ++ (shuffle seed l.enum).drop (sampleSize r l.length)).Nodup :=
      hperm.symm.nodup (nodup_enum l)
    have hd := (List.nodup_append.mp hnd).2.2
    exact fun x hx hx' => hd hx hx'
  · rw [List.take_append_drop]
    exact shuffle_perm seed l.enum
  · -- the train size is floor (r * n), within one row of r * n
    have hlen : ((shuffle seed l.enum).take (sampleSize r l.length)).length
        = sampleSize r l.length := by
      rw [List.length_take, shuffle_length, List.enum_length]
      have hle : r * (l.length : ℚ) ≤ (l.length : ℚ) := by
        calc r * (l.length : ℚ) ≤ 1 * (l.length : ℚ) :=
              mul_le_mul_of_nonneg_right h2.le (by positivity)
          _ = (l.length : ℚ) := one_mul _
      have hfl : ⌊r * (l.length : ℚ)⌋ ≤ (l.length : ℤ) := by
        have := Int.floor_le_floor hle
        rwa [Int.floor_natCast] at this
      unfold sampleSize
      omega
    rw [hlen]
    have hpos : (0 : ℚ) ≤ r * (l.length : ℚ) := by positivity
    have hfl0 : 0 ≤ ⌊r * (l.length : ℚ)⌋ := Int.floor_nonneg.mpr hpos
    have hcast : ((sampleSize r l.length : ℕ) : ℚ)
        = ((⌊r * (l.length : ℚ)⌋ : ℤ) : ℚ) := by
      unfold sampleSize
      have hz : ((⌊r * (l.length : ℚ)⌋.toNat : ℤ) : ℚ)
          = ((⌊r * (l.length : ℚ)⌋ : ℤ) : ℚ) := by
        rw [Int.toNat_of_nonneg hfl0]
      exact_mod_cast hz
    rw [hcast]
    have hlo : ((⌊r * (l.length : ℚ)⌋ : ℤ) : ℚ) ≤ r * (l.length : ℚ) :=
      Int.floor_le _
    have hhi : r * (l.length : ℚ) < ((⌊r * (l.length : ℚ)⌋ : ℤ) : ℚ) + 1 :=
      Int.lt_floor_add_one _
    rw [abs_lt]
    constructor <;> linarith

/-- C7 witness: splitting a concrete 4-row dataset with ratio 1/2 and seed
0 yields a disjoint partition of the enumerated rows with train size within
one row of 2. -/
theorem splitPartition_witness :
    0 < (1 / 2 : ℚ) ∧ (1 / 2 : ℚ) < 1 ∧ 2 ≤ ([10, 20, 30, 40] : List Nat).length
      ∧ ∃ tr te, split ([10, 20, 30, 40] : List Nat) (1 / 2) 0 = .ok (tr, te)
          ∧ (∀ x ∈ tr, x ∉ te)
          ∧ List.Perm (tr ++ te) ([10, 20, 30, 40] : List Nat).enum
          ∧ |(tr.length : ℚ) - (1 / 2) * ((([10, 20, 30, 40] : List Nat).length : ℚ))| < 1 :=
  ⟨by norm_num, by norm_num, by decide,
    splitPartition ([10, 20, 30, 40] : List Nat) (1 / 2) 0
      (by norm_num) (by norm_num) (by decide)⟩

/-! ### Evaluator -/

/-- C6: evaluator boundary case — for every pair of equal-length true and
predicted code sequences, `evaluate` returns as macro-F1 the unweighted
mean, over all `numLabels` classes, of the per-class F1 scores, and a class
with zero true instances and zero predicted instances has per-class F1
exactly 0 (a rational number, not NaN), so it enters the average with
contribution exactly 0 rather than being skipped. -/
theorem evaluatorMacroBoundary (yTrue yPred : List Nat) (numLabels : Nat)
    (h : yTrue.length = yPred.length) :
    (∃ acc, evaluate yTrue yPred numLabels
        = .ok (acc,
            (((List.range numLabels).map (classF1 yTrue yPred)).sum)
              / (numLabels : ℚ)))
    ∧ ∀ c, yTrue.count c = 0 → yPred.count c = 0 →
        classF1 yTrue yPred c = 0 := by
  constructor
  · refine ⟨((yTrue.zip yPred).countP (fun q => q.1 == q.2) : ℚ)
      / (yPred.length : ℚ), ?_⟩
    simp [evaluate, accuracy_score, macroF1Checked, macroF1, h]
    rfl
  · intro c ht hp
    simp [classF1, classPrecision, classRecall, ht, hp]

/-- C6 witness: with true codes `[0, 0]`, predicted codes `[0, 1]` and 3
classes, class 2 has zero true and zero predicted instances and F1 exactly
0, and the macro-F1 is the mean of the three per-class F1 scores. -/
theorem evaluatorMacroBoundary_witness :
    ([0, 0] : List Nat).length = ([0, 1] : List Nat).length
      ∧ ((∃ acc, evaluate ([0, 0] : List Nat) ([0, 1] : List Nat) 3
            = .ok (acc,
                (((List.range 3).map
                    (classF1 ([0, 0] : List Nat) ([0, 1] : List Nat))).sum)
                  / (3 : ℚ)))
          ∧ ∀ c, ([0, 0] : List Nat).count c = 0 →
              ([0, 1] : List Nat).count c = 0 →
              classF1 ([0, 0] : List Nat) ([0, 1] : List Nat) c = 0) :=
  ⟨rfl, evaluatorMacroBoundary ([0, 0] : List Nat) ([0, 1] : List Nat) 3 rfl⟩

/-! ### Benchmark harness -/

/-- A successful loop body pins down every step: the two preprocessing
calls, the fit, the predict and both evaluation metrics all returned
successfully, and the stored record is built from their outputs. -/
theorem benchmarkBody_ok_steps {β σ : Type} {ops : AdapterOps β σ}
    {dfTrain dfTest : List NRow} {numLabels : Nat} {m : String}
    {r : ResultRecord} (h : benchmarkBody ops dfTrain dfTest numLabels m = .ok r) :
    ∃ trainDl testDl fitRes preds acc f1,
      ops.preprocess m (m.endsWith "uncased") dfTrain true = .ok trainDl
      ∧ ops.preprocess m (m.endsWith "uncased") dfTest false = .ok testDl
      ∧ ops.fit m trainDl = .ok fitRes
      ∧ ops.predict m fitRes.1 testDl = .ok preds
      ∧ accuracy_score (dfTest.map (fun row => row.genre)) preds = .ok acc
      ∧ macroF1Checked (dfTest.map (fun row => row.genre)) preds numLabels
          = .ok f1
      ∧ r = ResultRecord.mk acc f1 (fitRes.2 / 3600) := by
  unfold benchmarkBody at h
  split at h
  next e h1 => cases h
  next trainDl h1 =>
  split at h
  next e h2 => cases h
  next testDl h2 =>
  split at h
  next e h3 => cases h
  next fitRes h3 =>
  split at h
  next e h4 => cases h
  next preds h4 =>
  split at h
  next e h5 => cases h
  next acc h5 =>
  split at h
  next e h6 => cases h
  next f1 h6 =>
  cases h
  exact ⟨trainDl, testDl, fitRes, preds, acc, f1, h1, h2, h3, h4, h5, h6, rfl⟩

/-- Every entry of the final results mapping was either already collected
or produced by a successful loop body for its identifier. -/
theorem mem_run_of_mem {β σ : Type} (ops : AdapterOps β σ)
    (dfTrain dfTest : List NRow) (numLabels : Nat) :
    ∀ (models : List String) (acc : List (String × ResultRecord))
      (m : String) (r : ResultRecord),
      (m, r) ∈ (runBenchmark ops dfTrain dfTest numLabels models acc).1 →
      (m, r) ∈ acc ∨ benchmarkBody ops dfTrain dfTest numLabels m = .ok r := by
  intro models
  induction models with
  | nil =>
    intro acc m r h
    exact Or.inl h
  | cons m' rest ih =>
    intro acc m r h
    cases hb : benchmarkBody ops dfTrain dfTest numLabels m' with
    | ok r' =>
      rw [show runBenchmark ops dfTrain dfTest numLabels (m' :: rest) acc
          = runBenchmark ops dfTrain dfTest numLabels rest (acc ++ [(m', r')]) by
        simp [runBenchmark, hb]] at h
      rcases ih (acc ++ [(m', r')]) m r h with hmem | hok
      · rcases List.mem_append.mp hmem with hmem | hmem
        · exact Or.inl hmem
        · have h' := List.mem_singleton.mp hmem
          cases h'
          exact Or.inr hb
      · exact Or.inr hok
    | error e =>
      rw [show runBenchmark ops dfTrain dfTest numLabels (m' :: rest) acc
          = (acc, some e) by simp [runBenchmark, hb]] at h
      exact Or.inl h

/-- An identifier whose loop body fails never enters the results mapping. -/
theorem notMem_run_of_error {β σ : Type} (ops : AdapterOps β σ)
    (dfTrain dfTest : List NRow) (numLabels : Nat) {m : String}
    {e : BenchError}
    (hm : benchmarkBody ops dfTrain dfTest numLabels m = .error e) :
    ∀ (models : List String) (acc : List (String × ResultRecord)),
      m ∉ acc.map Prod.fst →
      m ∉ (runBenchmark ops dfTrain dfTest numLabels models acc).1.map Prod.fst := by
  intro models
  induction models with
  | nil =>
    intro acc hacc
    exact hacc
  | cons m' rest ih =>
    intro acc hacc
    cases hb : benchmarkBody ops dfTrain dfTest numLabels m' with
    | ok r' =>
      rw [show runBenchmark ops dfTrain dfTest numLabels (m' :: rest) acc
          = runBenchmark ops dfTrain dfTest numLabels rest (acc ++ [(m', r')]) by
        simp [runBenchmark, hb]]
      apply ih
      intro hmem
      rw [List.map_append] at hmem
      rcases List.mem_append.mp hmem with h' | h'
      · exact hacc h'
      · have : m = m' := by simpa using h'
        rw [this] at hm
        rw [hm] at hb
        cases hb
    | error e' =>
      rw [show runBenchmark ops dfTrain dfTest numLabels (m' :: rest) acc
          = (acc, some e') by simp [runBenchmark, hb]]
      exact hacc

/-- C9: per-model result atomicity — an entry for an identifier appears in
the results mapping only when that identifier's preprocess (train and
test), fit, predict and both evaluation metrics all completed, and its
record is assembled from their outputs; if the identifier's body fails at
any step, the results mapping contains no entry at all for it. -/
theorem resultsAtomicity {β σ : Type} (ops : AdapterOps β σ)
    (dfTrain dfTest : List NRow) (numLabels : Nat) (models : List String)
    (m : String) :
    (∀ r, (m, r) ∈ (runBenchmark ops dfTrain dfTest numLabels models []).1 →
      ∃ trainDl testDl fitRes preds acc f1,
        ops.preprocess m (m.endsWith "uncased") dfTrain true = .ok trainDl
        ∧ ops.preprocess m (m.endsWith "uncased") dfTest false = .ok testDl
        ∧ ops.fit m trainDl = .ok fitRes
        ∧ ops.predict m fitRes.1 testDl = .ok preds
        ∧ accuracy_score (dfTest.map (fun row => row.genre)) preds = .ok acc
        ∧ macroF1Checked (dfTest.map (fun row => row.genre)) preds numLabels
            = .ok f1
        ∧ r = ResultRecord.mk acc f1 (fitRes.2 / 3600))
    ∧ ∀ e, benchmarkBody ops dfTrain dfTest numLabels m = .error e →
        m ∉ (runBenchmark ops dfTrain dfTest numLabels models []).1.map Prod.fst := by
  constructor
  · intro r hmem
    rcases mem_run_of_mem ops dfTrain dfTest numLabels models [] m r hmem with h | h
    · cases h
    · exact benchmarkBody_ok_steps h
  · intro e he
    exact notMem_run_of_error ops dfTrain dfTest numLabels he models []
      (by simp)

/-- C9 witness: with the concrete adapter whose `fit` fails for
`"model-b"`, the results of the three-model run contain no entry for
`"model-b"`. -/
theorem resultsAtomicity_witness :
    benchmarkBody failSecondOps [] cexTestDf 1 "model-b"
        = .error (BenchError.adapter AdapterError.resourceExhausted)
      ∧ "model-b" ∉ (runBenchmark failSecondOps [] cexTestDf 1
          ["model-a", "model-b", "model-c"] []).1.map Prod.fst :=
  ⟨rfl,
    (resultsAtomicity failSecondOps [] cexTestDf 1
        ["model-a", "model-b", "model-c"] "model-b").2
      (BenchError.adapter AdapterError.resourceExhausted) rfl⟩

/-- C1 counterexample: with three configured identifiers whose second
fails, the run does not proceed past the failure — the results list the
first identifier only (no error record for the second, and the third never
runs) and the error escapes the loop — refuting the claim that the harness
records the error, proceeds to the next identifier and lets no exception
escape. -/
theorem harnessIsolation_counterexample :
    (runBenchmark failSecondOps [] cexTestDf 1
        ["model-a", "model-b", "model-c"] []).1.map Prod.fst = ["model-a"]
      ∧ (runBenchmark failSecondOps [] cexTestDf 1
          ["model-a", "model-b", "model-c"] []).2
        = some (BenchError.adapter AdapterError.resourceExhausted) := by
  decide

/-- C1 (amended): when the loop body of one identifier fails after every
earlier identifier succeeded, the run preserves the results already
collected (the prior entries, in order) but stops: the failing identifier
and all subsequent identifiers get no entry, and the error escapes the
loop. -/
theorem harnessAbortOnError {β σ : Type} (ops : AdapterOps β σ)
    (dfTrain dfTest : List NRow) (numLabels : Nat)
    (pre post : List String) (m : String)
    (acc : List (String × ResultRecord)) (e : BenchError)
    (hpre : ∀ m' ∈ pre, ∃ r, benchmarkBody ops dfTrain dfTest numLabels m' = .ok r)
    (hm : benchmarkBody ops dfTrain dfTest numLabels m = .error e) :
    runBenchmark ops dfTrain dfTest numLabels (pre ++ m :: post) acc
      = (acc ++ pre.filterMap (fun m' =>
          (benchmarkBody ops dfTrain dfTest numLabels m').toOption.map
            (fun r => (m', r))), some e) := by
  induction pre generalizing acc with
  | nil =>
    simp [runBenchmark, hm]
  | cons p ps ih =>
    obtain ⟨r, hr⟩ := hpre p (List.mem_cons_self p ps)
    have hrec := ih (acc ++ [(p, r)])
      (fun m' h' => hpre m' (List.mem_cons_of_mem p h'))
    simp only [List.cons_append, runBenchmark, hr]
    refine hrec.trans ?_
    simp [hr, Except.toOption]

/-- C1 (amended) witness: in the three-model run whose second model fails,
the results are exactly the first model's entry and the error escapes. -/
theorem harnessAbortOnError_witness :
    (∀ m' ∈ ["model-a"], ∃ r,
        benchmarkBody failSecondOps [] cexTestDf 1 m' = .ok r)
      ∧ benchmarkBody failSecondOps [] cexTestDf 1 "model-b"
          = .error (BenchError.adapter AdapterError.resourceExhausted)
      ∧ runBenchmark failSecondOps [] cexTestDf 1
            (["model-a"] ++ "model-b" :: ["model-c"]) []
          = ([] ++ ["model-a"].filterMap (fun m' =>
              (benchmarkBody failSecondOps [] cexTestDf 1 m').toOption.map
                (fun r => (m', r))), some (BenchError.adapter
                  AdapterError.resourceExhausted)) :=
  ⟨fun m' h' => by
      have hm : m' = "model-a" := by simpa using h'
      rw [hm]
      exact ⟨_, rfl⟩,
   rfl,
   harnessAbortOnError failSecondOps [] cexTestDf 1 ["model-a"] ["model-c"]
     "model-b" [] (BenchError.adapter AdapterError.resourceExhausted)
     (fun m' h' => by
        have hm : m' = "model-a" := by simpa using h'
        rw [hm]
        exact ⟨_, rfl⟩)
     rfl⟩

/-! ### Result table and summary scalars -/

/-- C8: summary scalars — for every results mapping, the scalar glued under
the name `accuracy` equals the arithmetic mean of the per-model accuracy
values, and the scalar glued under the name `f1` equals the arithmetic
mean of the per-model macro-F1 values, over all models in the mapping. -/
theorem summaryScalars (results : List (String × ResultRecord)) :
    glueAccuracy results
        = ((results.map (fun pr => pr.2.accuracy)).sum) / (results.length : ℚ)
      ∧ glueF1 results
        = ((results.map (fun pr => pr.2.f1Score)).sum) / (results.length : ℚ) := by
  constructor <;> simp [glueAccuracy, glueF1, ilocRowMean, resultsTable]

/-! ### Label encoding overwrites the datasets -/

/-- The encoded rows carry the original non-label columns unchanged and the
codes in the label column. -/
theorem zipEncode_fields {df : List PRow} {codes : List Nat}
    (h : df.length = codes.length) :
    ((df.zip codes).map
        (fun q => NRow.mk q.1.gold_label q.2 q.1.sentence1)).map
          (fun row => row.gold_label)
        = df.map (fun row => row.gold_label)
      ∧ ((df.zip codes).map
          (fun q => NRow.mk q.1.gold_label q.2 q.1.sentence1)).map
            (fun row => row.sentence1)
        = df.map (fun row => row.sentence1)
      ∧ ((df.zip codes).map
          (fun q => NRow.mk q.1.gold_label q.2 q.1.sentence1)).map
            (fun row => row.genre)
        = codes := by
  induction df generalizing codes with
  | nil =>
    cases codes with
    | nil => simp
    | cons c cs => cases h
  | cons a tl ih =>
    cases codes with
    | nil => cases h
    | cons c cs =>
      obtain ⟨ih1, ih2, ih3⟩ := ih (show tl.length = cs.length by simpa using h)
      simp only [List.zip_cons_cons, List.map_cons]
      exact ⟨by rw [ih1], by rw [ih2], by rw [ih3]⟩

/-- C10: label encoding overwrites the datasets in place — after cell-12,
the label column of both the train and the test dataset holds exactly the
integer codes produced by the fitted mapping (instead of the original
label strings), every other column of both datasets is unchanged, and the
original strings are recoverable through the fitted mapping by the inverse
transformation. -/
theorem encodeOverwritesInPlace (dfTrain dfTest : List PRow)
    (tr te : List NRow) (cls : List String) (k : Nat)
    (h : encodeLabels dfTrain dfTest = .ok (tr, te, cls, k)) :
    tr.map (fun row => row.gold_label) = dfTrain.map (fun row => row.gold_label)
      ∧ tr.map (fun row => row.sentence1) = dfTrain.map (fun row => row.sentence1)
      ∧ te.map (fun row => row.gold_label) = dfTest.map (fun row => row.gold_label)
      ∧ te.map (fun row => row.sentence1) = dfTest.map (fun row => row.sentence1)
      ∧ leTransform (dfTrain.map (fun row => row.genre)) cls
          = .ok (tr.map (fun row => row.genre))
      ∧ leTransform (dfTest.map (fun row => row.genre)) cls
          = .ok (te.map (fun row => row.genre))
      ∧ leInverse (tr.map (fun row => row.genre)) cls
          = dfTrain.map (fun row => row.genre)
      ∧ leInverse (te.map (fun row => row.genre)) cls
          = dfTest.map (fun row => row.genre) := by
  unfold encodeLabels at h
  split at h
  next e h1 => cases h
  next trainCodes h1 =>
  split at h
  next e h2 => cases h
  next testCodes h2 =>
  cases h
  have hlen1 : (dfTrain.map (fun row => row.genre)).length = trainCodes.length :=
    (leTransform_ok_length h1).symm
  have hlen2 : (dfTest.map (fun row => row.genre)).length = testCodes.length :=
    (leTransform_ok_length h2).symm
  rw [List.length_map] at hlen1 hlen2
  obtain ⟨htr1, htr2, htr3⟩ := zipEncode_fields hlen1
  obtain ⟨hte1, hte2, hte3⟩ := zipEncode_fields hlen2
  refine ⟨htr1, htr2, hte1, hte2, ?_, ?_, ?_, ?_⟩
  · rw [htr3]; exact h1
  · rw [hte3]; exact h2
  · rw [htr3]; exact leInverse_leTransform h1
  · rw [hte3]; exact leInverse_leTransform h2

/-- C10 witness: encoding a concrete two-row train and one-row test
dataframe overwrites the genre column with codes through the sorted
mapping `["slate", "travel"]`, keeps the other columns unchanged, and the
inverse transformation recovers the original genre strings. -/
theorem encodeOverwritesInPlace_witness :
    encodeLabels
        [PRow.mk "neutral" "travel" "s1", PRow.mk "neutral" "slate" "s2"]
        [PRow.mk "neutral" "travel" "t1"]
      = .ok ([NRow.mk "neutral" 1 "s1", NRow.mk "neutral" 0 "s2"],
             [NRow.mk "neutral" 1 "t1"], ["slate", "travel"], 2)
      ∧ (let dfTrain :=
           [PRow.mk "neutral" "travel" "s1", PRow.mk "neutral" "slate" "s2"]
         let dfTest := [PRow.mk "neutral" "travel" "t1"]
         let tr := [NRow.mk "neutral" 1 "s1", NRow.mk "neutral" 0 "s2"]
         let te := [NRow.mk "neutral" 1 "t1"]
         let cls := ["slate", "travel"]
         tr.map (fun row => row.gold_label)
             = dfTrain.map (fun row => row.gold_label)
           ∧ tr.map (fun row => row.sentence1)
             = dfTrain.map (fun row => row.sentence1)
           ∧ te.map (fun row => row.gold_label)
             = dfTest.map (fun row => row.gold_label)
           ∧ te.map (fun row => row.sentence1)
             = dfTest.map (fun row => row.sentence1)
           ∧ leTransform (dfTrain.map (fun row => row.genre)) cls
             = .ok (tr.map (fun row => row.genre))
           ∧ leTransform (dfTest.map (fun row => row.genre)) cls
             = .ok (te.map (fun row => row.genre))
           ∧ leInverse (tr.map (fun row => row.genre)) cls
             = dfTrain.map (fun row => row.genre)
           ∧ leInverse (te.map (fun row => row.genre)) cls
             = dfTest.map (fun row => row.genre)) :=
  ⟨by decide,
   encodeOverwritesInPlace
     [PRow.mk "neutral" "travel" "s1", PRow.mk "neutral" "slate" "s2"]
     [PRow.mk "neutral" "travel" "t1"]
     [NRow.mk "neutral" 1 "s1", NRow.mk "neutral" 0 "s2"]
     [NRow.mk "neutral" 1 "t1"] ["slate", "travel"] 2 (by decide)⟩

end MnliBench
